import Mathlib

/-!
Verification development for the day-10 CPU simulator of the repository
(src/2022/Dec10/dec-10.ts). The TypeScript class CPU is shallowly embedded:
its mutable fields become a Lean structure, each method becomes a pure
function on that structure, and a method that can throw returns
`Except String`. JavaScript numbers that can be NaN (the result of
parseInt on a missing or non-numeric token) are modelled as `Option Int`,
with `none` standing for NaN; NaN propagates through addition, which
`jsAdd` reproduces. The register file of the source is a map holding the
single key X, embedded here as the single field `registerX`.
-/

namespace Dec10

/-- Enumeration of the operation codes, from `enum OperationCode`. -/
inductive OperationCode where
  | NOOP
  | ADDX
deriving DecidableEq

/-- A single instruction, from `class Instruction`: an opcode and an optional
argument. `arg = none` covers both an absent argument (noop) and a NaN
argument (addx whose operand token was missing or non-numeric). -/
structure Instruction where
  opcode : OperationCode
  arg : Option Int
deriving DecidableEq

/-- The CPU state, from the private fields of `class CPU`. The unused field
`actions` of the source (declared, never read or written) is omitted.
`registerX` embeds `registerFile.get('X')`; `none` models NaN. -/
structure CPU where
  registerX : Option Int
  busy : Bool
  opCount : Nat
  queuedOp : Option Instruction
  cycle : Nat
  instructions : List Instruction
deriving DecidableEq

/-- JavaScript addition on possibly-NaN numbers: NaN absorbs. -/
def jsAdd : Option Int → Option Int → Option Int
  | some x, some y => some (x + y)
  | _, _ => none

/-- Value of a list of decimal digit characters, most significant first. -/
def digitsToNat (cs : List Char) : Nat :=
  cs.foldl (fun acc ch => acc * 10 + (ch.toNat - 48)) 0

/-- Parse the leading run of digits; `none` when there is no leading digit
(JavaScript parseInt returning NaN). -/
def jsParseIntCore (cs : List Char) : Option Int :=
  let ds := cs.takeWhile Char.isDigit
  if ds.isEmpty then none else some (Int.ofNat (digitsToNat ds))

/-- JavaScript `parseInt` with radix 10: trim leading whitespace, optional
sign, then the longest digit prefix; NaN (`none`) when no digits follow. -/
def jsParseInt (str : String) : Option Int :=
  let cs := str.data.dropWhile
    (fun ch => ch = ' ' ∨ ch = '\t' ∨ ch = '\n' ∨ ch = '\r')
  match cs with
  | '-' :: rest => (jsParseIntCore rest).map (fun n => -n)
  | '+' :: rest => jsParseIntCore rest
  | _ => jsParseIntCore cs

/-- `parseInt` applied to an array element that may be absent:
`parseInt(undefined)` is NaN. -/
def jsParseIntOpt : Option String → Option Int
  | none => none
  | some s => jsParseInt s

/-- Worker for `splitSpace`: current token accumulated in reverse. -/
def splitSpaceGo : List Char → List Char → List String
  | [], cur => [String.mk cur.reverse]
  | ' ' :: rest, cur => String.mk cur.reverse :: splitSpaceGo rest []
  | ch :: rest, cur => splitSpaceGo rest (ch :: cur)

/-- JavaScript `line.split(' ')`: split on every single space, keeping empty
tokens; always returns at least one token. -/
def splitSpace (cs : List Char) : List String :=
  splitSpaceGo cs []

/-- The error message of the `default` branch of `load`. The source message
also wraps the command in quote characters; the surrounding text is kept. -/
def unsupportedCommandMsg (command : String) : String :=
  "Fatal error: Unsupported command " ++ command

/-- One line of `load` (the body of the `if (char === newline)` branch):
tokenize the buffered line, dispatch on the first token. `noop` takes no
argument; `addx` parses `tokens[1]` with parseInt and never validates it;
any other first token throws. -/
def parseLine (buffer : List Char) : Except String Instruction :=
  if (splitSpace buffer).headD "" = "noop" then
    Except.ok ⟨OperationCode.NOOP, none⟩
  else if (splitSpace buffer).headD "" = "addx" then
    Except.ok ⟨OperationCode.ADDX, jsParseIntOpt (splitSpace buffer)[1]?⟩
  else
    Except.error (unsupportedCommandMsg ((splitSpace buffer).headD ""))

/-- The character loop of `CPU.load`: characters accumulate into `buffer`
until a newline, at which point the line is parsed and its instruction
appended to `acc`. A parse error stops the loop, keeping the instructions
already appended (the source pushes onto `this.instructions` as it goes, so
a throw leaves the earlier pushes in place). Characters after the last
newline stay in the buffer and are dropped at the end of input. -/
def loadLoop : List Char → List Char → List Instruction →
    List Instruction × Option String
  | [], _, acc => (acc, none)
  | ch :: rest, buffer, acc =>
    if ch = '\n' then
      match parseLine buffer with
      | Except.ok ins => loadLoop rest [] (acc.concat ins)
      | Except.error e => (acc, some e)
    else
      loadLoop rest (buffer.concat ch) acc

/-- `CPU.load`: appends the parsed instructions to the instruction memory
queue; the second component is the thrown error, if any. -/
def CPU.load (c : CPU) (s : String) : CPU × Option String :=
  let r := loadLoop s.data [] []
  ({ c with instructions := c.instructions ++ r.1 }, r.2)

/-- A freshly constructed CPU: X = 1, idle, cycle 0, empty queue. -/
def initCPU : CPU :=
  ⟨some 1, false, 0, none, 0, []⟩

/-- Construct a CPU and load a program into it. -/
def loadCPU (s : String) : CPU × Option String :=
  initCPU.load s

/-- The error message of the `default` branch of the queued-execution switch
in `tick` (the source message also interpolates the opcode value). -/
def queuedExecErrMsg : String :=
  "Fatal error: Opcode does not support queued exec."

/-- The `if (!this.busy)` branch of `tick`: fetch the next instruction, if
any. NOOP completes at once; ADDX makes the CPU busy for one further cycle
and parks the instruction in `queuedOp`. The cycle counter advance that ends
`tick` is included here on every non-throwing path. -/
def CPU.idleStep (c : CPU) : Except String CPU :=
  match c.instructions with
  | [] => Except.ok { c with cycle := c.cycle + 1 }
  | next :: rest =>
    match next.opcode with
    | OperationCode.NOOP =>
      Except.ok { c with instructions := rest, cycle := c.cycle + 1 }
    | OperationCode.ADDX =>
      Except.ok { c with instructions := rest, busy := true, opCount := 1,
                         queuedOp := some next, cycle := c.cycle + 1 }

/-- The decrement of `opCount` at the head of the busy branch of `tick`:
`if (this.opCount > 0) this.opCount--`. -/
def decOp (k : Nat) : Nat :=
  if 0 < k then k - 1 else k

/-- The `else` branch of `tick`: decrement `opCount` when positive; when the
result is zero, commit the queued instruction. Only ADDX supports queued
execution; a queued NOOP or an empty `queuedOp` throws. Note the source sets
`busy = false` on commit but never clears `queuedOp`. -/
def CPU.busyStep (c : CPU) : Except String CPU :=
  if decOp c.opCount = 0 then
    match c.queuedOp with
    | some q =>
      match q.opcode with
      | OperationCode.ADDX =>
        Except.ok { c with registerX := jsAdd c.registerX q.arg,
                           opCount := decOp c.opCount, busy := false,
                           cycle := c.cycle + 1 }
      | OperationCode.NOOP => Except.error queuedExecErrMsg
    | none => Except.error queuedExecErrMsg
  else
    Except.ok { c with opCount := decOp c.opCount, cycle := c.cycle + 1 }

/-- `CPU.tick`: one clock cycle. -/
def CPU.tick (c : CPU) : Except String CPU :=
  if c.busy then c.busyStep else c.idleStep

/-- `CPU.getCycle`. -/
def CPU.getCycle (c : CPU) : Nat :=
  c.cycle

/-- `CPU.getRegisterX` (`none` models NaN). -/
def CPU.getRegisterX (c : CPU) : Option Int :=
  c.registerX

/-- `CPU.hasAdditionalWork`. -/
def CPU.hasAdditionalWork (c : CPU) : Bool :=
  decide (0 < c.instructions.length) || c.busy

/-- Running the three read-only accessors in sequence, returning their
results together with the state they leave behind. Each accessor body is a
bare field read with no assignment, so the state passes through unchanged. -/
def CPU.runQueries (c : CPU) : (Nat × Option Int × Bool) × CPU :=
  ((c.getCycle, c.getRegisterX, c.hasAdditionalWork), c)

/-- Iterated `tick`, propagating any thrown error. -/
def tickSeq (c : CPU) : Nat → Except String CPU
  | 0 => Except.ok c
  | n + 1 => (tickSeq c n).bind CPU.tick

/-- Observer view of a state: register X, the busy flag, has-more-work. -/
def view (c : CPU) : Option Int × Bool × Bool :=
  (c.getRegisterX, c.busy, c.hasAdditionalWork)

/-- The three-instruction example program of the specification. -/
def prog1 : String :=
  "noop\naddx 3\naddx -5\n"

/-- Claim C1: loading ["noop", "addx 3", "addx -5"] into a fresh CPU and
ticking five times yields the trace X=1 idle, X=1 busy, X=4 idle, X=4 busy,
X=-1 idle, with hasAdditionalWork true after ticks 1 to 4 and false exactly
after tick 5. -/
theorem c1_end_to_end_trace :
    (loadCPU prog1).2 = none ∧
    (tickSeq (loadCPU prog1).1 1).map view = Except.ok (some 1, false, true) ∧
    (tickSeq (loadCPU prog1).1 2).map view = Except.ok (some 1, true, true) ∧
    (tickSeq (loadCPU prog1).1 3).map view = Except.ok (some 4, false, true) ∧
    (tickSeq (loadCPU prog1).1 4).map view = Except.ok (some 4, true, true) ∧
    (tickSeq (loadCPU prog1).1 5).map view =
      Except.ok (some (-1), false, false) := by
  refine ⟨rfl, rfl, rfl, rfl, rfl, rfl⟩

/-- A concrete busy state: the CPU two ticks into `prog1`, holding
`addx 3` in flight with one latency cycle remaining. -/
def cBusy : CPU :=
  ⟨some 1, true, 1, some ⟨OperationCode.ADDX, some 3⟩, 2,
    [⟨OperationCode.ADDX, some (-5)⟩]⟩

/-- A busy CPU runs the busy branch of `tick`. -/
theorem tick_busy (c : CPU) (hb : c.busy = true) : c.tick = c.busyStep := by
  unfold CPU.tick
  rw [hb]
  rfl

/-- An idle CPU runs the fetch branch of `tick`. -/
theorem tick_idle (c : CPU) (hb : c.busy = false) : c.tick = c.idleStep := by
  unfold CPU.tick
  rw [hb]
  rfl

/-- The counter decrement on a positive count. -/
theorem decOp_pos (k : Nat) (h : 0 < k) : decOp k = k - 1 := by
  unfold decOp
  rw [if_pos h]

/-- `busyStep` on a state still owing more than one latency cycle: only the
counter decrements (and the cycle advances). -/
theorem busyStep_decrement (c : CPU) (h : 1 < c.opCount) :
    c.busyStep =
      Except.ok { c with opCount := c.opCount - 1, cycle := c.cycle + 1 } := by
  unfold CPU.busyStep
  rw [decOp_pos c.opCount (Nat.lt_of_le_of_lt (Nat.zero_le 1) h)]
  rw [if_neg (by omega)]

/-- `busyStep` on a state owing exactly one latency cycle with an ADDX in
flight: commit the addition, drop to idle, keep `queuedOp` as it is. -/
theorem busyStep_commit (c : CPU) (a : Option Int) (h1 : c.opCount = 1)
    (hq : c.queuedOp = some ⟨OperationCode.ADDX, a⟩) :
    c.busyStep =
      Except.ok { c with registerX := jsAdd c.registerX a, opCount := 0,
                         busy := false, cycle := c.cycle + 1 } := by
  unfold CPU.busyStep
  rw [h1, hq]
  rfl

/-- Fetching an ADDX from the head of the queue: the register file is left
alone, the CPU turns busy for one cycle with the instruction in flight. -/
theorem idleStep_fetch_addx (c : CPU) (a : Option Int)
    (rest : List Instruction)
    (hins : c.instructions = ⟨OperationCode.ADDX, a⟩ :: rest) :
    c.idleStep =
      Except.ok { c with instructions := rest, busy := true, opCount := 1,
                         queuedOp := some ⟨OperationCode.ADDX, a⟩,
                         cycle := c.cycle + 1 } := by
  unfold CPU.idleStep
  rw [hins]

/-- Whenever `busyStep` succeeds, the instruction queue is untouched: a busy
CPU fetches nothing. -/
theorem busyStep_ok_instructions (c c' : CPU)
    (h : c.busyStep = Except.ok c') : c'.instructions = c.instructions := by
  unfold CPU.busyStep at h
  split at h
  · split at h
    · split at h
      · injection h with h
        subst h
        rfl
      · exact Except.noConfusion h
    · exact Except.noConfusion h
  · injection h with h
    subst h
    rfl

/-- Whenever `busyStep` succeeds, the cycle counter has advanced by one. -/
theorem busyStep_ok_cycle (c c' : CPU) (h : c.busyStep = Except.ok c') :
    c'.cycle = c.cycle + 1 := by
  unfold CPU.busyStep at h
  split at h
  · split at h
    · split at h
      · injection h with h
        subst h
        rfl
      · exact Except.noConfusion h
    · exact Except.noConfusion h
  · injection h with h
    subst h
    rfl

/-- `idleStep` always succeeds, and the cycle counter advances by one. -/
theorem idleStep_ok_cycle (c c' : CPU) (h : c.idleStep = Except.ok c') :
    c'.cycle = c.cycle + 1 := by
  unfold CPU.idleStep at h
  split at h
  · injection h with h
    subst h
    rfl
  · split at h
    · injection h with h
      subst h
      rfl
    · injection h with h
      subst h
      rfl

/-- Whenever `tick` succeeds, the cycle counter has advanced by exactly
one. -/
theorem tick_ok_cycle (c c' : CPU) (h : c.tick = Except.ok c') :
    c'.cycle = c.cycle + 1 := by
  unfold CPU.tick at h
  split at h
  · exact busyStep_ok_cycle c c' h
  · exact idleStep_ok_cycle c c' h

/-- Claim C2: the latency semantics of multi-cycle instructions. (1) While
busy, no instruction is fetched: a successful tick leaves the queue
untouched. (2) The tick that fetches an ADDX leaves register X at its
pre-instruction value and turns the engine busy. (3) A busy tick with more
than one latency cycle remaining leaves X, the busy flag and the queue
unchanged. (4) Only the tick on which the remaining latency reaches zero
updates X, to the post-effect value. -/
theorem c2_latency_visibility :
    (∀ c c' : CPU, c.busy = true → c.tick = Except.ok c' →
      c'.instructions = c.instructions) ∧
    (∀ (c c' : CPU) (next : Instruction) (rest : List Instruction),
      c.busy = false → c.instructions = next :: rest →
      next.opcode = OperationCode.ADDX → c.tick = Except.ok c' →
      c'.getRegisterX = c.getRegisterX ∧ c'.busy = true) ∧
    (∀ c c' : CPU, c.busy = true → 1 < c.opCount → c.tick = Except.ok c' →
      c'.getRegisterX = c.getRegisterX ∧ c'.busy = true) ∧
    (∀ (c c' : CPU) (a : Option Int), c.busy = true → c.opCount = 1 →
      c.queuedOp = some ⟨OperationCode.ADDX, a⟩ → c.tick = Except.ok c' →
      c'.getRegisterX = jsAdd c.getRegisterX a ∧ c'.busy = false) := by
  refine ⟨?_, ?_, ?_, ?_⟩
  · intro c c' hb ht
    rw [tick_busy c hb] at ht
    exact busyStep_ok_instructions c c' ht
  · intro c c' next rest hb hins hop ht
    rcases next with ⟨op, a⟩
    cases hop
    rw [tick_idle c hb] at ht
    rw [idleStep_fetch_addx c a rest hins] at ht
    injection ht with ht
    subst ht
    exact ⟨rfl, rfl⟩
  · intro c c' hb hcnt ht
    rw [tick_busy c hb] at ht
    rw [busyStep_decrement c hcnt] at ht
    injection ht with ht
    subst ht
    exact ⟨rfl, hb⟩
  · intro c c' a hb h1 hq ht
    rw [tick_busy c hb] at ht
    rw [busyStep_commit c a h1 hq] at ht
    injection ht with ht
    subst ht
    exact ⟨rfl, rfl⟩

/-- Witness for C2, at the concrete busy state `cBusy`. -/
theorem c2_latency_visibility_witness :
    (⟨some 4, false, 0, some ⟨OperationCode.ADDX, some 3⟩, 3,
        [⟨OperationCode.ADDX, some (-5)⟩]⟩ : CPU).getRegisterX =
      jsAdd cBusy.getRegisterX (some 3) ∧
    (⟨some 4, false, 0, some ⟨OperationCode.ADDX, some 3⟩, 3,
        [⟨OperationCode.ADDX, some (-5)⟩]⟩ : CPU).busy = false :=
  c2_latency_visibility.2.2.2 cBusy _ (some 3) rfl rfl rfl rfl

/-- Counterexample to claim C3 as stated: the tick that commits the
in-flight `addx 3` of `prog1` (the third tick) leaves the engine idle, but
the in-flight field still holds the committed instruction: the source sets
`busy = false` on commit and never assigns `queuedOp = null`. -/
theorem c3_counterexample :
    (tickSeq (loadCPU prog1).1 2).map (fun c => (c.busy, c.queuedOp)) =
      Except.ok (true, some ⟨OperationCode.ADDX, some 3⟩) ∧
    (tickSeq (loadCPU prog1).1 3).map (fun c => (c.busy, c.queuedOp)) =
      Except.ok (false, some ⟨OperationCode.ADDX, some 3⟩) ∧
    (some (⟨OperationCode.ADDX, some 3⟩ : Instruction) : Option Instruction)
      ≠ none := by
  refine ⟨rfl, rfl, by decide⟩

/-- Claim C3 as amended: from a busy state, `tick` decrements the
remaining-latency counter; if it thereby reaches zero it applies the
in-flight ADDX effect to register X and transitions to idle, but the
in-flight field is left holding the completed instruction rather than being
cleared. -/
theorem c3_busy_transition (c : CPU) (hb : c.busy = true) :
    (1 < c.opCount → c.tick =
      Except.ok { c with opCount := c.opCount - 1, cycle := c.cycle + 1 }) ∧
    (∀ a : Option Int, c.opCount = 1 →
      c.queuedOp = some ⟨OperationCode.ADDX, a⟩ → c.tick =
      Except.ok { c with registerX := jsAdd c.registerX a, opCount := 0,
                         busy := false, cycle := c.cycle + 1 }) := by
  constructor
  · intro hcnt
    rw [tick_busy c hb]
    exact busyStep_decrement c hcnt
  · intro a h1 hq
    rw [tick_busy c hb]
    exact busyStep_commit c a h1 hq

/-- Witness for the amended C3, at the concrete busy state `cBusy`. -/
theorem c3_busy_transition_witness :
    cBusy.tick =
      Except.ok { cBusy with registerX := jsAdd cBusy.registerX (some 3),
                             opCount := 0, busy := false,
                             cycle := cBusy.cycle + 1 } :=
  (c3_busy_transition cBusy rfl).2 (some 3) rfl rfl

/-- A line whose first token is `noop` parses to a NOOP, whatever follows
the opcode: any operand tokens are ignored, never rejected. -/
theorem parseLine_noop (buffer : List Char)
    (h : (splitSpace buffer).headD "" = "noop") :
    parseLine buffer = Except.ok ⟨OperationCode.NOOP, none⟩ := by
  unfold parseLine
  rw [if_pos h]

/-- A line whose first token is `addx` parses to an ADDX whose argument is
whatever parseInt makes of the second token: a missing or non-numeric token
yields a NaN argument, never a rejection. -/
theorem parseLine_addx (buffer : List Char)
    (h : (splitSpace buffer).headD "" = "addx") :
    parseLine buffer =
      Except.ok ⟨OperationCode.ADDX,
        jsParseIntOpt (splitSpace buffer)[1]?⟩ := by
  unfold parseLine
  rw [if_neg (by rw [h]; decide), if_pos h]

/-- A line whose first token is neither `noop` nor `addx` is rejected with
the unsupported-command message naming that token. -/
theorem parseLine_unknown (buffer : List Char)
    (h1 : (splitSpace buffer).headD "" ≠ "noop")
    (h2 : (splitSpace buffer).headD "" ≠ "addx") :
    parseLine buffer =
      Except.error (unsupportedCommandMsg ((splitSpace buffer).headD "")) := by
  unfold parseLine
  rw [if_neg h1, if_neg h2]

/-- Counterexample to claim C4 as stated: the line "addx" with no operand is
accepted by load (no error; an ADDX with NaN argument is enqueued), and the
line "noop 1" with an operand is also accepted (the operand is ignored).
The claimed load-time rejection of these operand/opcode mismatches does not
happen. -/
theorem c4_counterexample :
    (loadCPU "addx\n").2 = none ∧
    (loadCPU "addx\n").1.instructions = [⟨OperationCode.ADDX, none⟩] ∧
    (loadCPU "noop 1\n").2 = none ∧
    (loadCPU "noop 1\n").1.instructions = [⟨OperationCode.NOOP, none⟩] := by
  refine ⟨rfl, rfl, rfl, rfl⟩

/-- Claim C4 as amended: load validates only the opcode token of each line.
A `noop` line is accepted with any trailing tokens ignored; an `addx` line
is accepted with its operand taken from parseInt of the second token (NaN,
modelled `none`, when the token is missing or non-numeric); only a line
whose first token is neither opcode is rejected. -/
theorem c4_opcode_only_validation (buffer : List Char) :
    ((splitSpace buffer).headD "" = "noop" →
      parseLine buffer = Except.ok ⟨OperationCode.NOOP, none⟩) ∧
    ((splitSpace buffer).headD "" = "addx" →
      parseLine buffer =
        Except.ok ⟨OperationCode.ADDX,
          jsParseIntOpt (splitSpace buffer)[1]?⟩) ∧
    ((splitSpace buffer).headD "" ≠ "noop" →
      (splitSpace buffer).headD "" ≠ "addx" →
      parseLine buffer =
        Except.error
          (unsupportedCommandMsg ((splitSpace buffer).headD ""))) :=
  ⟨parseLine_noop buffer, parseLine_addx buffer, parseLine_unknown buffer⟩

/-- Witness for the amended C4, on the concrete lines "addx", "noop 1" and
"foo 3". -/
theorem c4_opcode_only_validation_witness :
    parseLine "addx".data =
      Except.ok ⟨OperationCode.ADDX,
        jsParseIntOpt (splitSpace "addx".data)[1]?⟩ ∧
    parseLine "noop 1".data = Except.ok ⟨OperationCode.NOOP, none⟩ ∧
    parseLine "foo 3".data =
      Except.error
        (unsupportedCommandMsg ((splitSpace "foo 3".data).headD "")) :=
  ⟨(c4_opcode_only_validation "addx".data).2.1 (by decide),
   (c4_opcode_only_validation "noop 1".data).1 (by decide),
   (c4_opcode_only_validation "foo 3".data).2.2 (by decide) (by decide)⟩

/-- Claim C6: hasAdditionalWork is true exactly when the instruction queue
is non-empty or the engine is busy; in particular it is true right after a
successful load of a non-empty program (and, by the busy disjunct, stays
true until the last latency cycle has elapsed). -/
theorem c6_termination_predicate :
    (∀ c : CPU, c.hasAdditionalWork = true ↔
      (c.instructions ≠ [] ∨ c.busy = true)) ∧
    (∀ (s : String) (c0 : CPU), loadCPU s = (c0, none) →
      c0.instructions ≠ [] → c0.hasAdditionalWork = true) := by
  constructor
  · intro c
    simp [CPU.hasAdditionalWork, List.length_pos]
  · intro s c0 _ hne
    simp only [CPU.hasAdditionalWork, Bool.or_eq_true, decide_eq_true_eq]
    exact Or.inl (List.length_pos.mpr hne)

/-- Witness for C6, at the busy state `cBusy` and at a loaded program. -/
theorem c6_termination_predicate_witness :
    cBusy.hasAdditionalWork = true ∧
    (loadCPU "noop\n").1.hasAdditionalWork = true :=
  ⟨(c6_termination_predicate.1 cBusy).mpr (Or.inr rfl),
   c6_termination_predicate.2 "noop\n" (loadCPU "noop\n").1 rfl (by decide)⟩

/-- Claim C7: every successful tick advances the cycle counter by exactly
one, and a tick on an idle engine with an empty queue changes nothing
else. -/
theorem c7_cycle_increment :
    (∀ c c' : CPU, c.tick = Except.ok c' → c'.cycle = c.cycle + 1) ∧
    (∀ c : CPU, c.busy = false → c.instructions = [] →
      c.tick = Except.ok { c with cycle := c.cycle + 1 }) := by
  constructor
  · exact tick_ok_cycle
  · intro c hb hi
    rw [tick_idle c hb]
    unfold CPU.idleStep
    rw [hi]

/-- Witness for C7, at the fresh CPU. -/
theorem c7_cycle_increment_witness :
    CPU.tick initCPU = Except.ok { initCPU with cycle := initCPU.cycle + 1 } ∧
    ({ initCPU with cycle := initCPU.cycle + 1 } : CPU).cycle =
      initCPU.cycle + 1 :=
  ⟨c7_cycle_increment.2 initCPU rfl rfl,
   c7_cycle_increment.1 initCPU _ (c7_cycle_increment.2 initCPU rfl rfl)⟩

/-- Claim C8: the three accessors are pure reads. Running them leaves the
state exactly as it was, and running them again on that state returns the
same three values. -/
theorem c8_queries_pure (c : CPU) :
    c.runQueries.2 = c ∧ (c.runQueries.2).runQueries.1 = c.runQueries.1 :=
  ⟨rfl, rfl⟩

/-- Witness for C8, at the busy state `cBusy`. -/
theorem c8_queries_pure_witness :
    cBusy.runQueries.2 = cBusy ∧
    (cBusy.runQueries.2).runQueries.1 = cBusy.runQueries.1 :=
  c8_queries_pure cBusy

/-- Input with no newline at all: every character lands in the buffer and
the loop ends without emitting anything or failing. -/
theorem loadLoop_no_newline (ds : List Char) (h : '\n' ∉ ds)
    (buf : List Char) (acc : List Instruction) :
    loadLoop ds buf acc = (acc, none) := by
  induction ds generalizing buf with
  | nil => rfl
  | cons ch rest ih =>
    have hch : ¬(ch = '\n') := by
      intro hc
      exact h (by simp [hc])
    unfold loadLoop
    rw [if_neg hch]
    exact ih (fun hm => h (List.mem_cons_of_mem ch hm)) (buf.concat ch)

/-- Appending newline-free characters to the input does not change what the
load loop produces. -/
theorem loadLoop_append_no_newline (cs ds : List Char) (h : '\n' ∉ ds)
    (buf : List Char) (acc : List Instruction) :
    loadLoop (cs ++ ds) buf acc = loadLoop cs buf acc := by
  induction cs generalizing buf acc with
  | nil =>
    rw [List.nil_append, loadLoop_no_newline ds h buf acc]
    rfl
  | cons ch rest ih =>
    rw [List.cons_append]
    unfold loadLoop
    by_cases hch : ch = '\n'
    · rw [if_pos hch, if_pos hch]
      cases hpl : parseLine buf with
      | ok i => exact ih [] (acc.concat i)
      | error e => rfl
    · rw [if_neg hch, if_neg hch]
      exact ih (buf.concat ch) acc

/-- Claim C10: load parses only the characters up to and including the last
newline; whatever follows the last newline (even a whole unterminated final
line) is silently dropped — no instruction, no error. -/
theorem c10_trailing_chars_ignored (c : CPU) (s t : String)
    (h : '\n' ∉ t.data) :
    c.load (s ++ t) = c.load s := by
  obtain ⟨sd⟩ := s
  obtain ⟨td⟩ := t
  unfold CPU.load
  rw [show (String.mk sd ++ String.mk td).data = sd ++ td from rfl]
  rw [loadLoop_append_no_newline sd td h [] []]

/-- Witness for C10: the unterminated trailing line "foo 3" (which would
fail were it parsed) is ignored. -/
theorem c10_trailing_chars_ignored_witness :
    initCPU.load ("noop\n" ++ "foo 3") = initCPU.load "noop\n" :=
  c10_trailing_chars_ignored initCPU "noop\n" "foo 3" (by decide)

/-- The step equation of the load loop on a non-empty input, stated so that
it can be rewritten without touching the recursive occurrences. -/
theorem loadLoop_cons (ch : Char) (rest buf : List Char)
    (acc : List Instruction) :
    loadLoop (ch :: rest) buf acc =
      if ch = '\n' then
        match parseLine buf with
        | Except.ok ins => loadLoop rest [] (acc.concat ins)
        | Except.error e => (acc, some e)
      else
        loadLoop rest (buf.concat ch) acc := rfl

/-- One full line followed by a newline: the load loop parses the buffered
characters plus that line, emits on success, stops on failure. -/
theorem loadLoop_line (line rest : List Char) (h : '\n' ∉ line)
    (buf : List Char) (acc : List Instruction) :
    loadLoop (line ++ '\n' :: rest) buf acc =
      match parseLine (buf ++ line) with
      | Except.ok i => loadLoop rest [] (acc.concat i)
      | Except.error e => (acc, some e) := by
  induction line generalizing buf with
  | nil =>
    rw [List.nil_append, List.append_nil, loadLoop_cons, if_pos rfl]
  | cons ch cs ih =>
    have hch : ¬(ch = '\n') := by
      intro hc
      exact h (by simp [hc])
    rw [List.cons_append, loadLoop_cons, if_neg hch]
    rw [ih (fun hm => h (List.mem_cons_of_mem ch hm)) (buf.concat ch)]
    rw [show buf.concat ch ++ cs = buf ++ ch :: cs from by
      simp [List.concat_eq_append, List.append_assoc]]

/-- Newline-joined concatenation of a list of lines, each line given as its
characters. -/
def joinLines : List (List Char) → List Char
  | [] => []
  | l :: ls => l ++ '\n' :: joinLines ls

/-- Parse a list of lines in order, stopping at the first failure. -/
def parseLines : List (List Char) → Option (List Instruction)
  | [] => some []
  | l :: ls =>
    match parseLine l with
    | Except.ok i => (parseLines ls).map (fun is => i :: is)
    | Except.error _ => none

/-- Running the load loop over a block of newline-terminated lines that all
parse appends their instructions and continues with the rest of the
input. -/
theorem loadLoop_good_lines (ls : List (List Char))
    (instrs : List Instruction) (hnl : ∀ l ∈ ls, '\n' ∉ l)
    (hok : parseLines ls = some instrs) (tail : List Char)
    (acc : List Instruction) :
    loadLoop (joinLines ls ++ tail) [] acc =
      loadLoop tail [] (acc ++ instrs) := by
  induction ls generalizing instrs acc with
  | nil =>
    unfold parseLines at hok
    injection hok with hok
    subst hok
    rw [List.append_nil]
    rfl
  | cons l ls ih =>
    unfold parseLines at hok
    cases hpl : parseLine l with
    | ok i =>
      simp only [hpl] at hok
      cases his : parseLines ls with
      | none =>
        rw [his] at hok
        simp only [Option.map_none'] at hok
        exact Option.noConfusion hok
      | some is =>
        rw [his] at hok
        simp only [Option.map_some'] at hok
        injection hok with hok
        subst hok
        rw [show joinLines (l :: ls) ++ tail =
          l ++ '\n' :: (joinLines ls ++ tail) from by
            simp [joinLines, List.append_assoc]]
        rw [loadLoop_line l (joinLines ls ++ tail)
          (hnl l (List.mem_cons_self l ls)) [] acc]
        rw [List.nil_append, hpl]
        dsimp only
        rw [ih is (fun x hx => hnl x (List.mem_cons_of_mem l hx)) his
          (acc.concat i)]
        rw [show acc.concat i ++ is = acc ++ i :: is from by
          simp [List.concat_eq_append, List.append_assoc]]
    | error e =>
      simp only [hpl] at hok
      exact Option.noConfusion hok

/-- Counterexample to claim C5 as stated: loading "noop\nfoo 3\n" throws
the unsupported-command error for "foo", yet the instruction parsed from
the first line is already in the engine queue — the failed load does not
leave the engine without loaded instructions. -/
theorem c5_counterexample :
    (loadCPU "noop\nfoo 3\n").2 =
      some (unsupportedCommandMsg "foo") ∧
    (loadCPU "noop\nfoo 3\n").1.instructions =
      [⟨OperationCode.NOOP, none⟩] ∧
    ([⟨OperationCode.NOOP, none⟩] : List Instruction) ≠ [] := by
  refine ⟨rfl, rfl, by decide⟩

/-- Claim C5 as amended: a load input whose lines parse up to an
unrecognized-opcode line fails with the error naming that command, but the
instructions of the preceding lines remain appended to the engine queue —
load is not atomic on error. -/
theorem c5_partial_load (c : CPU) (ls : List (List Char))
    (instrs : List Instruction) (bad tail : List Char)
    (hnl : ∀ l ∈ ls, '\n' ∉ l) (hok : parseLines ls = some instrs)
    (hbad1 : (splitSpace bad).headD "" ≠ "noop")
    (hbad2 : (splitSpace bad).headD "" ≠ "addx")
    (hbadnl : '\n' ∉ bad) :
    c.load (String.mk (joinLines ls ++ bad ++ '\n' :: tail)) =
      ({ c with instructions := c.instructions ++ instrs },
        some (unsupportedCommandMsg ((splitSpace bad).headD ""))) := by
  unfold CPU.load
  rw [show (String.mk (joinLines ls ++ bad ++ '\n' :: tail)).data =
    joinLines ls ++ (bad ++ '\n' :: tail) from by simp [List.append_assoc]]
  rw [loadLoop_good_lines ls instrs hnl hok (bad ++ '\n' :: tail) []]
  rw [List.nil_append]
  rw [loadLoop_line bad tail hbadnl [] instrs]
  rw [List.nil_append]
  rw [parseLine_unknown bad hbad1 hbad2]

/-- Witness for the amended C5, on the concrete input "noop\nfoo 3\n". -/
theorem c5_partial_load_witness :
    initCPU.load
        (String.mk (joinLines ["noop".data] ++ "foo 3".data ++ '\n' :: [])) =
      ({ initCPU with
          instructions := initCPU.instructions ++ [⟨OperationCode.NOOP, none⟩] },
        some (unsupportedCommandMsg ((splitSpace "foo 3".data).headD ""))) :=
  c5_partial_load initCPU ["noop".data] [⟨OperationCode.NOOP, none⟩]
    "foo 3".data [] (by decide) rfl (by decide) (by decide) (by decide)

/-- Fetching a NOOP from the head of the queue: the instruction completes
at once and only the queue and the cycle counter change. -/
theorem idleStep_fetch_noop (c : CPU) (a : Option Int)
    (rest : List Instruction)
    (hins : c.instructions = ⟨OperationCode.NOOP, a⟩ :: rest) :
    c.idleStep =
      Except.ok { c with instructions := rest, cycle := c.cycle + 1 } := by
  unfold CPU.idleStep
  rw [hins]

/-- States reachable from a start state by any number of successful
ticks. -/
inductive Reaches : CPU → CPU → Prop
  | refl (c : CPU) : Reaches c c
  | step {a b b' : CPU} : Reaches a b → b.tick = Except.ok b' → Reaches a b'

/-- The execution invariant: whenever the engine is busy, exactly one
latency cycle remains and the in-flight slot holds an ADDX. -/
def BusyInv (c : CPU) : Prop :=
  c.busy = true →
    c.opCount = 1 ∧ ∃ a, c.queuedOp = some ⟨OperationCode.ADDX, a⟩

/-- Progress and preservation in one step: from any state satisfying the
invariant, `tick` succeeds and the invariant holds again. In particular
neither throwing branch of `tick` is taken. -/
theorem tick_progress (c : CPU) (h : BusyInv c) :
    ∃ c', c.tick = Except.ok c' ∧ BusyInv c' := by
  cases hb : c.busy with
  | true =>
    obtain ⟨h1, a, hq⟩ := h hb
    have ht : c.tick =
        Except.ok { c with registerX := jsAdd c.registerX a, opCount := 0,
                           busy := false, cycle := c.cycle + 1 } := by
      rw [tick_busy c hb]
      exact busyStep_commit c a h1 hq
    refine ⟨_, ht, ?_⟩
    intro hb'
    exact Bool.noConfusion hb'
  | false =>
    cases hi : c.instructions with
    | nil =>
      have ht : c.tick = Except.ok { c with cycle := c.cycle + 1 } := by
        rw [tick_idle c hb]
        unfold CPU.idleStep
        rw [hi]
      refine ⟨_, ht, ?_⟩
      intro hb'
      have hcb : c.busy = true := hb'
      rw [hb] at hcb
      exact Bool.noConfusion hcb
    | cons next rest =>
      rcases next with ⟨op, a⟩
      cases op with
      | NOOP =>
        have ht : c.tick =
            Except.ok { c with instructions := rest,
                               cycle := c.cycle + 1 } := by
          rw [tick_idle c hb]
          exact idleStep_fetch_noop c a rest hi
        refine ⟨_, ht, ?_⟩
        intro hb'
        have hcb : c.busy = true := hb'
        rw [hb] at hcb
        exact Bool.noConfusion hcb
      | ADDX =>
        have ht : c.tick =
            Except.ok { c with instructions := rest, busy := true,
                               opCount := 1,
                               queuedOp := some ⟨OperationCode.ADDX, a⟩,
                               cycle := c.cycle + 1 } := by
          rw [tick_idle c hb]
          exact idleStep_fetch_addx c a rest hi
        refine ⟨_, ht, ?_⟩
        intro _
        exact ⟨rfl, a, rfl⟩

/-- The invariant is preserved along any reachable execution. -/
theorem reaches_busyInv {c0 c : CPU} (h0 : BusyInv c0)
    (hr : Reaches c0 c) : BusyInv c := by
  induction hr with
  | refl => exact h0
  | step hr ht ih =>
    obtain ⟨c'', ht', hinv⟩ := tick_progress _ ih
    rw [ht] at ht'
    injection ht' with he
    exact he ▸ hinv

/-- Claim C9: starting from an engine produced by a successful load, every
reachable state steps without error: `tick` never takes either of its two
throwing branches. (The fetch-time unrecognized-opcode branch is already
unrepresentable here, since a successful load only ever enqueues NOOP and
ADDX instructions; the queued-exec throw is the `Except.error` value this
theorem excludes.) -/
theorem c9_exec_errors_unreachable (s : String) (c0 c : CPU)
    (hload : loadCPU s = (c0, none)) (hr : Reaches c0 c) :
    ∃ c', c.tick = Except.ok c' := by
  have hc0 : c0 = (loadCPU s).1 := by rw [hload]
  have hb0 : c0.busy = false := by
    rw [hc0]
    rfl
  have h0 : BusyInv c0 := by
    intro hb
    rw [hb0] at hb
    exact Bool.noConfusion hb
  obtain ⟨c', ht, _⟩ := tick_progress c (reaches_busyInv h0 hr)
  exact ⟨c', ht⟩

/-- Witness for C9, at the loaded one-line program "noop". -/
theorem c9_exec_errors_unreachable_witness :
    ∃ c', CPU.tick (loadCPU "noop\n").1 = Except.ok c' :=
  c9_exec_errors_unreachable "noop\n" (loadCPU "noop\n").1
    (loadCPU "noop\n").1 rfl (Reaches.refl (loadCPU "noop\n").1)

end Dec10
